import Mathlib

/-!
Verification development for the CardTraders infra seeding scripts
(`infra/scripts/seed_mongo_user.py` and `infra/scripts/seed_uploaded_card.py`).

The scripts are shallowly embedded: documents become association lists of
BSON-like values, the MongoDB operations the scripts invoke
(`update_one` with `$set`/`$setOnInsert` and `upsert=True`,
`find_one_and_update` with `$inc`, `insert_one`) become pure functions on an
explicit collection state, and the sources of nondeterminism (current time,
`uuid.uuid4().hex[:12]`, the bcrypt salt) are passed as explicit parameters.
-/

namespace CardTraders

/-- BSON-like values as stored by the scripts: strings, integers, booleans,
nulls, datetimes (modelled as an abstract tick), ObjectIds (carrying their
24-character hex spelling), arrays and subdocuments. -/
inductive BVal where
  | str : String → BVal
  | int : Int → BVal
  | bool : Bool → BVal
  | null : BVal
  | time : Nat → BVal
  | oid : String → BVal
  | arr : List BVal → BVal
  | doc : List (String × BVal) → BVal

/-- A document is an association list from (top-level) field names to values. -/
abbrev BDoc := List (String × BVal)

mutual

/-- Boolean equality on BSON values (used by filter matching). -/
def BVal.beq : BVal → BVal → Bool
  | .str a, .str b => a == b
  | .int a, .int b => a == b
  | .bool a, .bool b => a == b
  | .null, .null => true
  | .time a, .time b => a == b
  | .oid a, .oid b => a == b
  | .arr a, .arr b => BVal.beqList a b
  | .doc a, .doc b => BVal.beqPairs a b
  | _, _ => false

/-- Elementwise equality of BSON arrays. -/
def BVal.beqList : List BVal → List BVal → Bool
  | [], [] => true
  | x :: xs, y :: ys => BVal.beq x y && BVal.beqList xs ys
  | _, _ => false

/-- Elementwise equality of BSON subdocuments. -/
def BVal.beqPairs : List (String × BVal) → List (String × BVal) → Bool
  | [], [] => true
  | (k1, v1) :: xs, (k2, v2) :: ys => k1 == k2 && BVal.beq v1 v2 && BVal.beqPairs xs ys
  | _, _ => false

end

/-- Look up a top-level field of a document. -/
def docGet (d : BDoc) (k : String) : Option BVal :=
  (d.find? (fun kv => kv.1 == k)).map (fun kv => kv.2)

/-- Field names of a document, in order. -/
def keysOf (d : BDoc) : List String := d.map (fun kv => kv.1)

/-- Overwrite field k with value v, appending the field if it is absent
(the behaviour of a MongoDB `$set` on one path; document keys are distinct,
so replacing the first occurrence is replacing the occurrence). -/
def setField : BDoc → String → BVal → BDoc
  | [], k, v => [(k, v)]
  | kv :: rest, k, v =>
      if kv.1 == k then (k, v) :: rest else kv :: setField rest k v

/-- Apply a `$set` payload to a document, field by field in payload order. -/
def applySet (d : BDoc) (s : BDoc) : BDoc :=
  s.foldl (fun acc kv => setField acc kv.1 kv.2) d

/-- Equality-filter matching: every field named by the filter must be present
with an equal value (the scripts only ever filter on `email` / `_id`). -/
def matchesFilter (filt : BDoc) (d : BDoc) : Bool :=
  filt.all (fun kv => match docGet d kv.1 with
    | some v => BVal.beq v kv.2
    | none => false)

/-- The update document of the seed script's `update_one` call: a `$set`
payload applied on every write and a `$setOnInsert` payload applied only
when the upsert inserts. -/
structure UpdateSpec where
  set : BDoc
  setOnInsert : BDoc

/-- Errors the storage layer raises on an update call. MongoDB rejects an
update document in which two update operators name the same field path
(error code 40, ConflictingUpdateOperators). -/
inductive UpdateError where
  | conflictingPaths (path : String)

/-- Field paths named by both the `$set` and the `$setOnInsert` payloads;
any such path makes the whole update call invalid. -/
def conflictPaths (u : UpdateSpec) : List String :=
  (keysOf u.set).filter (fun k => (keysOf u.setOnInsert).contains k)

/-- Outcome of a successful upsert: the new collection contents and whether
the call inserted (`upserted_id` was returned) rather than matched. -/
structure UpdateResult where
  coll : List BDoc
  didInsert : Bool

/-- Update the first document matching the filter with the `$set` payload;
none when no document matches. -/
def updateFirstMatch : List BDoc → BDoc → BDoc → Option (List BDoc)
  | [], _, _ => none
  | d :: rest, filt, s =>
      if matchesFilter filt d then some (applySet d s :: rest)
      else (updateFirstMatch rest filt s).map (fun r => d :: r)

/-- MongoDB `update_one(filter, {"$set": ..., "$setOnInsert": ...}, upsert=True)`:
the update document is validated first (a path in both operators is a
conflict and fails the whole call); otherwise the first matching document
receives the `$set` payload, and if none matches a new document is built
from the equality filter, the `$set` payload and the `$setOnInsert` payload. -/
def updateOne (coll : List BDoc) (filt : BDoc) (u : UpdateSpec) :
    Except UpdateError UpdateResult :=
  match conflictPaths u with
  | p :: _ => .error (.conflictingPaths p)
  | [] =>
      match updateFirstMatch coll filt u.set with
      | some coll2 => .ok ⟨coll2, false⟩
      | none => .ok ⟨coll ++ [applySet (applySet filt u.set) u.setOnInsert], true⟩

/-- Hexadecimal digit test, both cases (as accepted by `bson.ObjectId`). -/
def isHexChar (c : Char) : Bool :=
  c.isDigit || (('a' ≤ c && c ≤ 'f') || ('A' ≤ c && c ≤ 'F'))

/-- Validity of an ObjectId spelling: `ObjectId(s)` for a string accepts
exactly the 24-character hexadecimal spellings. -/
def isValidObjectId (s : String) : Bool :=
  s.length == 24 && s.data.all isHexChar

/-- The `--starred` loop of seed_mongo_user.main (lines 86-92): each candidate
is turned into an ObjectId, an invalid one prints a warning and is skipped.
Returns the surviving spellings in input order and the warning count. -/
def collectStarred : List String → List String × Nat
  | [] => ([], 0)
  | s :: rest =>
      let prev := collectStarred rest
      if isValidObjectId s then (s :: prev.1, prev.2) else (prev.1, prev.2 + 1)

/-- The userId resolution of seed_mongo_user.main line 81:
`args.user_id or f"usr_{uuid.uuid4().hex[:12]}"`. Python `or` takes the
right operand when the left is falsy, i.e. None or the empty string;
`freshHex` stands for the 12 hex characters drawn from `uuid4`. -/
def resolveUserId (supplied : Option String) (freshHex : String) : String :=
  match supplied with
  | some s => if s == "" then "usr_" ++ freshHex else s
  | none => "usr_" ++ freshHex

/-- Modelled from the spec: the bcrypt library called on line 84 is external
to this repository. Per the spec (§4.3) a digest embeds the scheme version,
the work-factor cost, the randomized salt and a salt-keyed transform of the
plaintext, and verification recomputes that transform from the embedded
salt. One-wayness is outside the model. -/
structure BcryptDigest where
  version : String
  cost : Nat
  salt : String
  mac : String

/-- Modelled from the spec: the salt-keyed one-way transform inside bcrypt,
standing in for the Blowfish-based key derivation (a concrete stand-in;
only determinism in (plaintext, salt) is relied on). -/
def bcryptMac (pw saltR : String) : String :=
  String.mk (saltR.data.reverse ++ pw.data.reverse)

/-- Modelled from the spec: `bcrypt.hashpw(pw, bcrypt.gensalt(rounds=cost))`
with the freshly drawn salt characters passed explicitly as `saltR`. -/
def bcryptHashpw (pw : String) (cost : Nat) (saltR : String) : BcryptDigest :=
  ⟨"2b", cost, saltR, bcryptMac pw saltR⟩

/-- Modelled from the spec: `bcrypt.checkpw` recomputes the transform from
the salt embedded in the digest and compares. -/
def bcryptCheckpw (pw : String) (d : BcryptDigest) : Bool :=
  d.mac == bcryptMac pw d.salt

/-- The modular-crypt rendering of a digest, the string stored in the
document's password field. -/
def renderDigest (d : BcryptDigest) : String :=
  "$" ++ d.version ++ "$" ++ toString d.cost ++ "$" ++ d.salt ++ d.mac

/-- Python `str.lower()` as applied to the email on line 97, modelled on the
character list (ASCII case folding; the full Unicode table is out of
scope). -/
def lowerEmail (s : String) : String :=
  String.mk (s.data.map Char.toLower)

/-- The command-line surface of seed_mongo_user.parse_args: each field is one
argparse option (options with `default=None` become Option). -/
structure Args where
  email : String
  password : String
  username : String
  phone_num : String
  address : String
  pfp_url : Option String
  notification : Bool
  starred : List String
  blocked : List String
  premade : List String
  signup_date : String
  user_id : Option String

/-- The argparse defaults of seed_mongo_user.parse_args; `signup` stands for
`datetime.now().strftime("%Y/%m/%d")`, evaluated at argument-parsing time. -/
def defaultArgs (signup : String) : Args where
  email := "test@cardtraders.app"
  password := "Test1234!"
  username := "test-user"
  phone_num := "010-0000-0000"
  address := "서울특별시 어딘가 123"
  pfp_url := none
  notification := true
  starred := []
  blocked := []
  premade := ["안녕하세요", "구매 가능합니다"]
  signup_date := signup
  user_id := none

/-- The document assembled by seed_mongo_user.main lines 94-117. `saltR` is
the bcrypt salt drawn on line 84, `freshHex` the uuid hex drawn on line 81,
`now` the `datetime.now(timezone.utc)` of line 80. The pfp subdocument
follows Python truthiness: `"url" if args.pfp_url else None` yields null
both when no URL is supplied and when the supplied URL is empty. -/
def buildUserDoc (a : Args) (saltR freshHex : String) (now : Nat) : BDoc :=
  [("userId", .str (resolveUserId a.user_id freshHex)),
   ("username", .str a.username),
   ("email", .str (lowerEmail a.email)),
   ("password", .str (renderDigest (bcryptHashpw a.password 12 saltR))),
   ("phone_num", .str a.phone_num),
   ("address", .str a.address),
   ("signup_date", .str a.signup_date),
   ("suggested_num", .int 0),
   ("starred_item", .arr ((collectStarred a.starred).1.map .oid)),
   ("messages", .arr []),
   ("premade_messages", .arr (a.premade.map .str)),
   ("notification", .bool a.notification),
   ("blocked_users", .arr (a.blocked.map .str)),
   ("pfp", .doc
      [("url", match a.pfp_url with | some u => .str u | none => .null),
       ("storage", match a.pfp_url with
          | some u => if u == "" then .null else .str "url"
          | none => .null)]),
   ("createdAt", .time now),
   ("updatedAt", .time now)]

/-- The filter of the upsert on line 120: `{"email": doc["email"]}`, i.e. the
lowercased email of the assembled document. -/
def upsertKey (a : Args) : BDoc :=
  [("email", .str (lowerEmail a.email))]

/-- The update document of line 120:
`{"$set": doc, "$setOnInsert": {"userId": user_id}}`. -/
def userUpdateSpec (a : Args) (saltR freshHex : String) (now : Nat) : UpdateSpec :=
  ⟨buildUserDoc a saltR freshHex now,
   [("userId", .str (resolveUserId a.user_id freshHex))]⟩

/-- The single upsert call of seed_mongo_user.main line 120 against a given
users-collection state. -/
def userUpsertCall (a : Args) (saltR freshHex : String) (now : Nat)
    (coll : List BDoc) : Except UpdateError UpdateResult :=
  updateOne coll (upsertKey a) (userUpdateSpec a saltR freshHex now)

/-- Counter collection state: each counter document `{_id: name, seq: v}`
as a pair. Only this core mutates it, via next_seq. -/
abbrev Counters := List (String × Int)

/-- Current value of a named counter document (the seq field of the first
document whose _id matches), none when absent. -/
def lookupCounter : Counters → String → Option Int
  | [], _ => none
  | p :: rest, name => if p.1 == name then some p.2 else lookupCounter rest name

/-- seed_uploaded_card.next_seq (lines 9-16): an atomic
`find_one_and_update({_id: name}, {"$inc": {"seq": 1}}, upsert=True,
return_document=AFTER)` creates the counter at 0 when absent, increments,
and returns the post-increment document; `int(res.get("seq") or 1)` maps a
falsy seq (0) to 1. Returns the new counter state and the integer. -/
def next_seq (cs : Counters) (name : String) : Counters × Int :=
  match lookupCounter cs name with
  | some v =>
      let v2 := v + 1
      (cs.map (fun p => if p.1 == name then (p.1, v2) else p),
       if v2 == 0 then 1 else v2)
  | none => (cs ++ [(name, 1)], 1)

/-- n successive next_seq calls for one counter name, collecting the state
after the last call and the returned values in call order. -/
def seqRun (cs : Counters) (name : String) : Nat → Counters × List Int
  | 0 => (cs, [])
  | n + 1 =>
      let r1 := next_seq cs name
      let r2 := seqRun r1.1 name n
      (r2.1, r1.2 :: r2.2)

/-- The contiguous n-element run of integers starting at `start`
(start, start+1, ..., start+n-1): the shape the spec's monotonic-sequence
property promises for the values a counter hands out. -/
def intRangeFrom (start : Int) : Nat → List Int
  | 0 => []
  | n + 1 => start :: intRangeFrom (start + 1) n

/-- The per-run card attributes of seed_uploaded_card.main lines 26-37; the
script hardcodes one instance (see pikachuCard) and `createdAt` is the
run's `datetime.now(timezone.utc)`. -/
structure CardAttrs where
  category : String
  card_name : String
  rarity : String
  language : String
  set : String
  card_num : String
  createdAt : Nat

/-- The card attribute values hardcoded by seed_uploaded_card.main, with the
run's timestamp passed in. -/
def pikachuCard (now : Nat) : CardAttrs :=
  ⟨"pokemon", "Pikachu (Illustration Rare)", "Illustration Rare", "en",
   "SVP Black Star Promos", "SVP 085", now⟩

/-- The document inserted by seed_uploaded_card.main: the id obtained from
the sequence counter followed by the card attributes. -/
def cardDoc (id : Int) (c : CardAttrs) : BDoc :=
  [("id", .int id),
   ("category", .str c.category),
   ("card_name", .str c.card_name),
   ("rarity", .str c.rarity),
   ("language", .str c.language),
   ("set", .str c.set),
   ("card_num", .str c.card_num),
   ("createdAt", .time c.createdAt)]

/-- One Card Insert Workflow run (seed_uploaded_card.main): draw the next id
from the counter named "uploadedCards", assemble the document, append it to
the uploadedCards collection (a pure insert_one). -/
def cardMain (c : CardAttrs) (st : Counters × List BDoc) : Counters × List BDoc :=
  let r := next_seq st.1 "uploadedCards"
  (r.1, st.2 ++ [cardDoc r.2 c])

/-! Helper lemmas about the document and counter primitives. -/

theorem docGet_setField_self (d : BDoc) (k : String) (v : BVal) :
    docGet (setField d k v) k = some v := by
  induction d with
  | nil => simp [setField, docGet]
  | cons kv rest ih =>
      by_cases h : kv.1 = k
      · simp [setField, h, docGet]
      · simp only [setField, beq_iff_eq, h, if_false]
        simpa [docGet, List.find?_cons, h] using ih

theorem docGet_setField_ne (d : BDoc) (k1 k : String) (v : BVal) (h : k1 ≠ k) :
    docGet (setField d k1 v) k = docGet d k := by
  induction d with
  | nil => simp [setField, docGet, List.find?_cons, h]
  | cons kv rest ih =>
      by_cases hk : kv.1 = k1
      · simp [setField, hk, docGet, List.find?_cons, h, hk ▸ h]
      · simp only [setField, beq_iff_eq, hk, if_false]
        by_cases hkk : kv.1 = k
        · simp [docGet, List.find?_cons, hkk]
        · simpa [docGet, List.find?_cons, hkk] using ih

theorem lookupCounter_bump (cs : Counters) (name : String) (v v2 : Int)
    (h : lookupCounter cs name = some v) :
    lookupCounter (cs.map (fun p => if p.1 == name then (p.1, v2) else p)) name
      = some v2 := by
  induction cs with
  | nil => simp [lookupCounter] at h
  | cons p rest ih =>
      by_cases hp : p.1 = name
      · simp [lookupCounter, hp]
      · have hh : lookupCounter rest name = some v := by
          simpa [lookupCounter, hp] using h
        simpa [lookupCounter, hp] using ih hh

theorem lookupCounter_append_fresh (cs : Counters) (name : String) (v : Int)
    (h : lookupCounter cs name = none) :
    lookupCounter (cs ++ [(name, v)]) name = some v := by
  induction cs with
  | nil => simp [lookupCounter]
  | cons p rest ih =>
      by_cases hp : p.1 = name
      · simp [lookupCounter, hp] at h
      · have hh : lookupCounter rest name = none := by
          simpa [lookupCounter, hp] using h
        simpa [lookupCounter, hp] using ih hh

theorem next_seq_step (cs : Counters) (name : String) (v : Int)
    (h : lookupCounter cs name = some v) (hv : 0 ≤ v) :
    (next_seq cs name).2 = v + 1 ∧
    lookupCounter (next_seq cs name).1 name = some (v + 1) := by
  have hne : (v + 1 == 0) = false := by
    simp only [beq_eq_false_iff_ne, ne_eq]
    omega
  constructor
  · simp [next_seq, h, hne]
  · simp only [next_seq, h]
    exact lookupCounter_bump cs name v (v + 1) h

theorem next_seq_fresh (cs : Counters) (name : String)
    (h : lookupCounter cs name = none) :
    (next_seq cs name).2 = 1 ∧
    lookupCounter (next_seq cs name).1 name = some 1 := by
  refine ⟨by simp [next_seq, h], ?_⟩
  simp only [next_seq, h]
  exact lookupCounter_append_fresh cs name 1 h

theorem seqRun_values (name : String) (n : Nat) :
    ∀ (cs : Counters) (v : Int), lookupCounter cs name = some v → 0 ≤ v →
      (seqRun cs name n).2 = intRangeFrom (v + 1) n := by
  induction n with
  | zero => intro cs v _ _; rfl
  | succ n ih =>
      intro cs v h hv
      obtain ⟨h1, h2⟩ := next_seq_step cs name v h hv
      simp only [seqRun, intRangeFrom, h1]
      exact congrArg (fun l => (v + 1) :: l)
        (ih (next_seq cs name).1 (v + 1) h2 (by omega))

theorem mem_intRangeFrom (x : Int) (n : Nat) :
    ∀ start : Int, x ∈ intRangeFrom start n ↔ start ≤ x ∧ x < start + n := by
  induction n with
  | zero =>
      intro start
      constructor
      · intro hx
        exact absurd hx (List.not_mem_nil x)
      · intro hx
        exfalso
        omega
  | succ n ih =>
      intro start
      simp only [intRangeFrom, List.mem_cons, ih (start + 1)]
      constructor
      · rintro (rfl | ⟨h1, h2⟩) <;> constructor <;> omega
      · rintro ⟨h1, h2⟩
        by_cases hx : x = start
        · exact Or.inl hx
        · refine Or.inr ⟨by omega, by omega⟩

theorem intRangeFrom_nodup (n : Nat) :
    ∀ start : Int, (intRangeFrom start n).Nodup ∧ (intRangeFrom start n).length = n := by
  induction n with
  | zero => intro start; simp [intRangeFrom]
  | succ n ih =>
      intro start
      obtain ⟨hnd, hlen⟩ := ih (start + 1)
      refine ⟨List.nodup_cons.mpr ⟨?_, hnd⟩, by simp [intRangeFrom, hlen]⟩
      intro hmem
      have := (mem_intRangeFrom start n (start + 1)).mp hmem
      omega

/-- C2: the upsert call of seed_mongo_user.main line 120 names userId both in
the payload applied on every write (the $set of the full document) and in
the applied-only-on-insert payload ($setOnInsert); under the storage
layer's rule that one field path may not appear in two update operators,
this one call is rejected as conflicting for every input, so the upsert
never succeeds. -/
theorem c2_upsert_always_conflicts (a : Args) (saltR freshHex : String) (now : Nat)
    (coll : List BDoc) :
    (keysOf (userUpdateSpec a saltR freshHex now).set).contains "userId" = true ∧
    (keysOf (userUpdateSpec a saltR freshHex now).setOnInsert).contains "userId" = true ∧
    userUpsertCall a saltR freshHex now coll
      = .error (.conflictingPaths "userId") :=
  ⟨rfl, rfl, rfl⟩

/-- C5: for every candidate list, the surviving starred references are
exactly the 24-character hexadecimal spellings, in input order; each
rejected element adds exactly one warning; the assembled document stores
the survivors as its starred_item array; and on the spec's concrete input
the survivors are the first and third tokens with one warning. -/
theorem c5_reference_filtering (ss : List String) (a : Args)
    (saltR freshHex : String) (now : Nat) :
    (collectStarred ss).1 = ss.filter isValidObjectId ∧
    (collectStarred ss).2 = (ss.filter (fun s => !isValidObjectId s)).length ∧
    docGet (buildUserDoc a saltR freshHex now) "starred_item"
      = some (.arr ((collectStarred a.starred).1.map .oid)) ∧
    collectStarred ["deadbeefdeadbeefdeadbeef", "not-an-id", "abad1deaabad1deaabad1dea"]
      = (["deadbeefdeadbeefdeadbeef", "abad1deaabad1deaabad1dea"], 1) := by
  refine ⟨?_, ?_, rfl, by decide⟩
  · induction ss with
    | nil => rfl
    | cons s rest ih =>
        by_cases h : isValidObjectId s <;>
          simp [collectStarred, List.filter_cons, h, ih]
  · induction ss with
    | nil => rfl
    | cons s rest ih =>
        by_cases h : isValidObjectId s <;>
          simp [collectStarred, List.filter_cons, h, ih]

/-- C8 counterexample: with no profile-image URL supplied (the script's
defaults), the assembled document still carries a pfp descriptor, and that
descriptor has url and storage both null — refuting the claim that the
document then carries no image descriptor. -/
theorem c8_pfp_counterexample :
    docGet (buildUserDoc (defaultArgs "2025/01/01") "SALT" "0123456789ab" 0) "pfp"
      = some (.doc [("url", .null), ("storage", .null)]) ∧
    docGet (buildUserDoc (defaultArgs "2025/01/01") "SALT" "0123456789ab" 0) "pfp"
      ≠ none := by
  have h1 : docGet (buildUserDoc (defaultArgs "2025/01/01") "SALT" "0123456789ab" 0)
      "pfp" = some (.doc [("url", .null), ("storage", .null)]) := rfl
  exact ⟨h1, by simp [h1]⟩

/-- C8 as amended: the assembled document always carries a pfp descriptor
as a nullable pair of fields: with no URL supplied both url and storage are
null (absence is an all-null pair, not an omitted descriptor); with a
nonempty URL it is the pair of the URL and the tag "url". -/
theorem c8_pfp_nullable_pair (a : Args) (saltR freshHex : String) (now : Nat)
    (u : String) :
    (a.pfp_url = none →
      docGet (buildUserDoc a saltR freshHex now) "pfp"
        = some (.doc [("url", .null), ("storage", .null)])) ∧
    (a.pfp_url = some u → u ≠ "" →
      docGet (buildUserDoc a saltR freshHex now) "pfp"
        = some (.doc [("url", .str u), ("storage", .str "url")])) := by
  constructor
  · intro h
    simp [buildUserDoc, docGet, List.find?, h]
  · intro h hu
    simp [buildUserDoc, docGet, List.find?, h, hu]

/-- C8 witness: the amended statement applied to the default arguments
(no URL) and to a run with a nonempty URL. -/
theorem c8_pfp_nullable_pair_witness :
    docGet (buildUserDoc (defaultArgs "2025/01/01") "SALT" "0123456789ab" 0) "pfp"
      = some (.doc [("url", .null), ("storage", .null)]) ∧
    docGet (buildUserDoc
        { defaultArgs "2025/01/01" with pfp_url := some "https://cdn.example/p.png" }
        "SALT" "0123456789ab" 0) "pfp"
      = some (.doc [("url", .str "https://cdn.example/p.png"),
                    ("storage", .str "url")]) :=
  ⟨(c8_pfp_nullable_pair (defaultArgs "2025/01/01") "SALT" "0123456789ab" 0 "").1 rfl,
   (c8_pfp_nullable_pair
      { defaultArgs "2025/01/01" with pfp_url := some "https://cdn.example/p.png" }
      "SALT" "0123456789ab" 0 "https://cdn.example/p.png").2 rfl (by decide)⟩

/-- C9 counterexample: the caller-supplied identifier can be the empty
string (a supplied value under Python argparse), and then the resolved
identifier is the synthesized token, not the supplied value. -/
theorem c9_empty_forced_id_counterexample :
    resolveUserId (some "") "0123456789ab" = "usr_0123456789ab" ∧
    "usr_0123456789ab" ≠ "" :=
  ⟨rfl, by decide⟩

/-- C9 as amended: the resolved application identifier equals the
caller-supplied value when a nonempty one is given; when the value is
absent — or empty, which Python truthiness treats as absent — it is a
fresh token carrying the fixed human-readable marker "usr_". -/
theorem c9_user_id_resolution (sup : Option String) (freshHex s : String) :
    (sup = some s → s ≠ "" → resolveUserId sup freshHex = s) ∧
    (sup = none → resolveUserId sup freshHex = "usr_" ++ freshHex) ∧
    (sup = some "" → resolveUserId sup freshHex = "usr_" ++ freshHex) := by
  refine ⟨?_, ?_, ?_⟩ <;> intro h
  · intro hs
    subst h
    simp [resolveUserId, hs]
  · subst h
    rfl
  · subst h
    rfl

/-- C9 witness: the amended resolution at a nonempty forced id, at an
absent id and at an empty forced id. -/
theorem c9_user_id_resolution_witness :
    resolveUserId (some "forced-id") "0123456789ab" = "forced-id" ∧
    resolveUserId none "0123456789ab" = "usr_" ++ "0123456789ab" ∧
    resolveUserId (some "") "0123456789ab" = "usr_" ++ "0123456789ab" :=
  ⟨(c9_user_id_resolution (some "forced-id") "0123456789ab" "forced-id").1 rfl
      (by decide),
   (c9_user_id_resolution none "0123456789ab" "x").2.1 rfl,
   (c9_user_id_resolution (some "") "0123456789ab" "x").2.2 rfl⟩

/-- C1 (the idempotence the spec promises fails on the code): re-running
the User Upsert Workflow cannot leave a stored record's userId and
createdAt unchanged — with the script's default arguments (any signup
date, salt and uuid draw, any run time, and any prior collection state)
the single upsert call is rejected as a userId path conflict, so a second
run never updates the record at all; and even were the $set payload
applied to a pre-existing record, it would overwrite userId with the new
run's freshly generated value and createdAt with the new run's time. -/
theorem c1_rerun_upsert_rejected (signup saltR freshHex : String) (now : Nat)
    (coll : List BDoc) (r : BDoc) :
    userUpsertCall (defaultArgs signup) saltR freshHex now coll
      = .error (.conflictingPaths "userId") ∧
    docGet (applySet r (buildUserDoc (defaultArgs signup) saltR freshHex now))
        "userId" = some (.str ("usr_" ++ freshHex)) ∧
    docGet (applySet r (buildUserDoc (defaultArgs signup) saltR freshHex now))
        "createdAt" = some (.time now) := by
  refine ⟨rfl, ?_, ?_⟩ <;>
    simp [buildUserDoc, defaultArgs, resolveUserId, applySet,
      docGet_setField_self, docGet_setField_ne]

/-- C3: next_seq increments the stored counter and returns the
post-increment value (creating the counter so that a fresh name first
returns 1 and stores 1); N calls for one name starting from a fresh
counter return the contiguous run 1, 2, ..., N — N distinct values, no
duplicates, no gaps. The sequential composition seqRun stands for the N
callers, each find_one_and_update being one atomic storage step. -/
theorem c3_counter_monotonic_sequence :
    (∀ (cs : Counters) (name : String) (v : Int),
        lookupCounter cs name = some v → 0 ≤ v →
        (next_seq cs name).2 = v + 1 ∧
        lookupCounter (next_seq cs name).1 name = some (v + 1)) ∧
    (∀ (cs : Counters) (name : String),
        lookupCounter cs name = none →
        (next_seq cs name).2 = 1 ∧
        lookupCounter (next_seq cs name).1 name = some 1) ∧
    (∀ (cs : Counters) (name : String) (n : Nat),
        lookupCounter cs name = none →
        (seqRun cs name n).2 = intRangeFrom 1 n) ∧
    (∀ (start x : Int) (n : Nat),
        x ∈ intRangeFrom start n ↔ start ≤ x ∧ x < start + n) ∧
    (∀ (start : Int) (n : Nat),
        (intRangeFrom start n).Nodup ∧ (intRangeFrom start n).length = n) := by
  refine ⟨next_seq_step, next_seq_fresh, ?_,
    fun start x n => mem_intRangeFrom x n start,
    fun start n => intRangeFrom_nodup n start⟩
  intro cs name n h
  cases n with
  | zero => rfl
  | succ n =>
      obtain ⟨h1, h2⟩ := next_seq_fresh cs name h
      simp only [seqRun, intRangeFrom, h1]
      exact congrArg (fun l => (1 : Int) :: l)
        (seqRun_values name n (next_seq cs name).1 1 h2 (by omega))

/-- C3 witness: a counter standing at 41 hands out 42 and stores 42; three
calls on a fresh counter return exactly the run 1, 2, 3, which is the
three-element duplicate-free contiguous range from 1. -/
theorem c3_counter_monotonic_sequence_witness :
    (next_seq [("uploadedCards", 41)] "uploadedCards").2 = 41 + 1 ∧
    lookupCounter (next_seq [("uploadedCards", 41)] "uploadedCards").1
      "uploadedCards" = some (41 + 1) ∧
    (seqRun [] "uploadedCards" 3).2 = intRangeFrom 1 3 ∧
    ((2 : Int) ∈ intRangeFrom 1 3 ↔ 1 ≤ (2 : Int) ∧ (2 : Int) < 1 + (3 : Nat)) ∧
    (intRangeFrom 1 3).Nodup ∧ (intRangeFrom 1 3).length = 3 := by
  obtain ⟨p1, p2, p3, p4, p5⟩ := c3_counter_monotonic_sequence
  have h1 := p1 [("uploadedCards", 41)] "uploadedCards" 41 rfl (by decide)
  exact ⟨h1.1, h1.2, p3 [] "uploadedCards" 3 rfl, p4 1 2 3,
    (p5 1 3).1, (p5 1 3).2⟩

/-- C4: three sequential Card Insert Workflow runs against a fresh
"uploadedCards" counter append, in order, documents whose id fields are
1, 2 and 3, regardless of the card attributes of each run. -/
theorem c4_three_inserts_ids (a1 a2 a3 : CardAttrs) (cs : Counters)
    (coll : List BDoc) (h : lookupCounter cs "uploadedCards" = none) :
    (cardMain a3 (cardMain a2 (cardMain a1 (cs, coll)))).2
      = coll ++ [cardDoc 1 a1, cardDoc 2 a2, cardDoc 3 a3] ∧
    docGet (cardDoc 1 a1) "id" = some (.int 1) ∧
    docGet (cardDoc 2 a2) "id" = some (.int 2) ∧
    docGet (cardDoc 3 a3) "id" = some (.int 3) := by
  obtain ⟨f1, f2⟩ := next_seq_fresh cs "uploadedCards" h
  obtain ⟨g1, g2⟩ := next_seq_step _ "uploadedCards" 1 f2 (by decide)
  obtain ⟨k1, k2⟩ := next_seq_step _ "uploadedCards" (1 + 1) g2 (by decide)
  refine ⟨?_, rfl, rfl, rfl⟩
  simp only [cardMain, f1, g1, k1]
  norm_num [List.append_assoc]

/-- C4 witness: three runs with the script's hardcoded card attributes
from the empty counter and collection states produce ids 1, 2, 3. -/
theorem c4_three_inserts_ids_witness :
    (cardMain (pikachuCard 3)
        (cardMain (pikachuCard 2) (cardMain (pikachuCard 1) ([], [])))).2
      = [] ++ [cardDoc 1 (pikachuCard 1), cardDoc 2 (pikachuCard 2),
               cardDoc 3 (pikachuCard 3)] ∧
    docGet (cardDoc 1 (pikachuCard 1)) "id" = some (.int 1) ∧
    docGet (cardDoc 2 (pikachuCard 2)) "id" = some (.int 2) ∧
    docGet (cardDoc 3 (pikachuCard 3)) "id" = some (.int 3) :=
  c4_three_inserts_ids (pikachuCard 1) (pikachuCard 2) (pikachuCard 3) [] [] rfl

/-- C6: the workflow lowercases the email before the key comparison: the
assembled document's email field is the lowercased input, and two runs
whose emails agree up to letter case use the same upsert key, so both
upserts target the same stored record. -/
theorem c6_email_normalized (a1 a2 : Args) (saltR freshHex : String) (now : Nat)
    (h : lowerEmail a1.email = lowerEmail a2.email) :
    docGet (buildUserDoc a1 saltR freshHex now) "email"
      = some (.str (lowerEmail a1.email)) ∧
    upsertKey a1 = upsertKey a2 := by
  refine ⟨rfl, ?_⟩
  simp [upsertKey, h]

/-- C6 witness: the runs with emails "A@x.com" and "a@x.com" store the
lowercased email and share one upsert key. -/
theorem c6_email_normalized_witness :
    docGet (buildUserDoc { defaultArgs "2025/01/01" with email := "A@x.com" }
        "SALT" "0123456789ab" 0) "email"
      = some (.str (lowerEmail "A@x.com")) ∧
    upsertKey { defaultArgs "2025/01/01" with email := "A@x.com" }
      = upsertKey { defaultArgs "2025/01/01" with email := "a@x.com" } :=
  c6_email_normalized
    { defaultArgs "2025/01/01" with email := "A@x.com" }
    { defaultArgs "2025/01/01" with email := "a@x.com" }
    "SALT" "0123456789ab" 0 (by decide)

/-- C7: the Credential Hasher is bcrypt with the work factor fixed at cost
12 (line 84 passes rounds=12 to gensalt): hashing one plaintext under two
different freshly drawn salts yields two different digests, each of which
verifies against the plaintext under the verification function; the
assembled document stores the rendered cost-12 digest. -/
theorem c7_bcrypt_cost12_fresh_salt (pw saltR1 saltR2 freshHex : String)
    (a : Args) (now : Nat) (hne : saltR1 ≠ saltR2) :
    bcryptHashpw pw 12 saltR1 ≠ bcryptHashpw pw 12 saltR2 ∧
    bcryptCheckpw pw (bcryptHashpw pw 12 saltR1) = true ∧
    bcryptCheckpw pw (bcryptHashpw pw 12 saltR2) = true ∧
    (bcryptHashpw a.password 12 saltR1).cost = 12 ∧
    docGet (buildUserDoc a saltR1 freshHex now) "password"
      = some (.str (renderDigest (bcryptHashpw a.password 12 saltR1))) := by
  refine ⟨?_, ?_, ?_, rfl, rfl⟩
  · intro heq
    exact hne (congrArg BcryptDigest.salt heq)
  · simp [bcryptCheckpw, bcryptHashpw]
  · simp [bcryptCheckpw, bcryptHashpw]

/-- C7 witness: the hashing properties at the default plaintext and two
concrete distinct salt draws. -/
theorem c7_bcrypt_cost12_fresh_salt_witness :
    bcryptHashpw "Test1234!" 12 "N9qo8uLOickgx2ZM"
      ≠ bcryptHashpw "Test1234!" 12 "R9h5cIPz0gi3URNN" ∧
    bcryptCheckpw "Test1234!" (bcryptHashpw "Test1234!" 12 "N9qo8uLOickgx2ZM")
      = true ∧
    bcryptCheckpw "Test1234!" (bcryptHashpw "Test1234!" 12 "R9h5cIPz0gi3URNN")
      = true ∧
    (bcryptHashpw (defaultArgs "2025/01/01").password 12 "N9qo8uLOickgx2ZM").cost
      = 12 ∧
    docGet (buildUserDoc (defaultArgs "2025/01/01") "N9qo8uLOickgx2ZM"
        "0123456789ab" 0) "password"
      = some (.str (renderDigest
          (bcryptHashpw (defaultArgs "2025/01/01").password 12
            "N9qo8uLOickgx2ZM"))) :=
  c7_bcrypt_cost12_fresh_salt "Test1234!" "N9qo8uLOickgx2ZM" "R9h5cIPz0gi3URNN"
    "0123456789ab" (defaultArgs "2025/01/01") 0 (by decide)

/-- C10: the assembled document fixes suggested_num to 0 and messages to
the empty list, and the payload the upsert applies on every write is that
whole document, so applying the update to any pre-existing record resets
suggested_num and messages to those defaults and replaces blocked_users
and premade_messages with the current run's values rather than preserving
the stored ones. -/
theorem c10_update_resets_fields (a : Args) (saltR freshHex : String)
    (now : Nat) (r : BDoc) :
    (userUpdateSpec a saltR freshHex now).set = buildUserDoc a saltR freshHex now ∧
    docGet (buildUserDoc a saltR freshHex now) "suggested_num"
      = some (.int 0) ∧
    docGet (buildUserDoc a saltR freshHex now) "messages" = some (.arr []) ∧
    docGet (applySet r (buildUserDoc a saltR freshHex now)) "suggested_num"
      = some (.int 0) ∧
    docGet (applySet r (buildUserDoc a saltR freshHex now)) "messages"
      = some (.arr []) ∧
    docGet (applySet r (buildUserDoc a saltR freshHex now)) "blocked_users"
      = some (.arr (a.blocked.map .str)) ∧
    docGet (applySet r (buildUserDoc a saltR freshHex now)) "premade_messages"
      = some (.arr (a.premade.map .str)) := by
  refine ⟨rfl, rfl, rfl, ?_, ?_, ?_, ?_⟩ <;>
    simp [buildUserDoc, applySet, docGet_setField_self, docGet_setField_ne]

end CardTraders
